import Mathlib

/-!
Verification development for the opening-extraction and aggregation core of a
chess-performance dashboard.  The embedded functions mirror, line by line,
`extract_opening_data` and `create_opening_statistics_table` in
`components/opening_explorer.py` and `get_opening_stats` in
`utils/data_processor.py`.  The external PGN parsing library
(`chess.pgn.read_game` plus SAN rendering) is modelled as an oracle
parameter, and the pandas ordering of the final tables (which affects only
row order, not row content) is not modelled; all theorems below are stated
at the level of row membership and per-group statistics.
-/

namespace ChessData

/-- Whitespace class matched by the Python regex `\s` (ASCII part). -/
def pythonIsSpace (c : Char) : Bool :=
  c = ' ' || c = '\t' || c = '\n' || c = '\r' || c = '\x0b' || c = '\x0c'

/-- Consume an exact literal from the front of a character list, returning the
remainder on success. -/
def dropLiteral : List Char → List Char → Option (List Char)
  | [], s => some s
  | _ :: _, [] => none
  | l :: ls, c :: cs => if c = l then dropLiteral ls cs else none

/-- Attempt the regex `\[<tag>\s+"([^"]+)"\]` anchored at the start of `s`,
returning the captured group.  Because `\s+` and `[^"]+` are runs over
character classes that exclude the character that must follow them,
backtracking never helps and the greedy maximal-run reading is exact. -/
def matchTagAt (tag : List Char) (s : List Char) : Option (List Char) :=
  match dropLiteral ('[' :: tag) s with
  | none => none
  | some s1 =>
    let sp := s1.takeWhile pythonIsSpace
    if sp.isEmpty then none
    else
      match s1.drop sp.length with
      | '"' :: s3 =>
        let cap := s3.takeWhile (fun c => c ≠ '"')
        if cap.isEmpty then none
        else
          match s3.drop cap.length with
          | '"' :: ']' :: _ => some cap
          | _ => none
      | _ => none

/-- Leftmost-match search, the semantics of Python `re.search`: try the
anchored match at every position from the left. -/
def searchTag (tag : List Char) : List Char → Option (List Char)
  | [] => none
  | c :: rest =>
    match matchTagAt tag (c :: rest) with
    | some cap => some cap
    | none => searchTag tag rest

/-- Literal tag name of the regex `\[Opening\s+"([^"]+)"\]`. -/
def openingTag : List Char := "Opening".toList

/-- Literal tag name of the regex `\[Variation\s+"([^"]+)"\]`. -/
def variationTag : List Char := "Variation".toList

/-- One input row of the processed dataframe: the `PGN`, `Result` and `Side`
cells.  `none` models a missing value (`pd.isna`). -/
structure Row where
  pgn : Option String
  result : Option String
  side : Option String
deriving DecidableEq

/-- The input table: `hasPGN` records whether a `PGN` column exists at all,
`rows` the data rows in order.  The whole table being `Option` models the
`df is None` guard. -/
structure DataFrame where
  hasPGN : Bool
  rows : List Row
deriving DecidableEq

/-- One output row of `extract_opening_data`.  `opening` and `variation`
are always strings (the extractor always appends one), while `result` and
`side` are the stored cells: `row.get('Result', 'Unknown')` on a row of a
table that has the column returns the stored value, so a missing (NaN)
cell stays missing (`none`) and is never replaced by the string default,
which applies only when the key is absent from the row's index (a table
without the column; the processed table always carries `Result` and
`Side`, so that case is not modelled). -/
structure LabeledRow where
  opening : String
  variation : String
  result : Option String
  side : Option String
deriving DecidableEq

/-- Oracle for the external library call
`chess.pgn.read_game(io.StringIO(pgn))` together with SAN rendering of the
mainline: `Except.error` models an exception escaping the `try` block,
`.ok none` models `read_game` returning a falsy game, and `.ok (some sans)`
models a parsed game whose mainline moves render to the given SAN strings. -/
def ParseFun : Type := String → Except Unit (Option (List String))

/-- Cascading conditionals of `extract_opening_data` classifying a game by
its first SAN half-moves (`moves[0]`, `moves[1]`).  An empty move list keeps
the default label `"Standard Opening"` (the `if moves:` guard). -/
def classifyFirstMoves : List String → String
  | [] => "Standard Opening"
  | m0 :: rest =>
    if m0 = "e4" then
      match rest with
      | m1 :: _ =>
        if m1 = "e5" then "Open Game"
        else if m1 = "c5" then "Sicilian Defense"
        else "King's Pawn Game"
      | [] => "King's Pawn Game"
    else if m0 = "d4" then
      match rest with
      | m1 :: _ =>
        if m1 = "d5" then "Closed Game"
        else if m1 = "Nf6" then "Indian Defense"
        else "Queen's Pawn Game"
      | [] => "Queen's Pawn Game"
    else if m0 = "c4" then "English Opening"
    else if m0 = "Nf3" then "Reti Opening"
    else "Other Opening"

/-- Per-record opening/variation extraction: the body of the loop of
`extract_opening_data` for a present, non-empty PGN string.  Returns the
`(opening, variation)` pair. -/
def extractLabel (parse : ParseFun) (pgn : String) : String × String :=
  match searchTag openingTag pgn.toList with
  | some cap =>
    match searchTag variationTag pgn.toList with
    | some v => (String.mk cap, String.mk v)
    | none => (String.mk cap, "Main Line")
  | none =>
    match parse pgn with
    | .error _ => ("Unknown Opening", "Main Line")
    | .ok none => ("Standard Opening", "Main Line")
    | .ok (some sans) => (classifyFirstMoves (sans.take 4), "Main Line")

/-- Loop of `extract_opening_data` over the rows: rows whose PGN cell is
missing (`pd.isna`) or empty (falsy) are skipped by `continue`; every other
row contributes one labeled row carrying the stored `Result`/`Side` cells
through unchanged (see the `LabeledRow` docstring for the `row.get`
semantics: a NaN cell stays NaN). -/
def extractRows (parse : ParseFun) : List Row → List LabeledRow
  | [] => []
  | r :: rest =>
    match r.pgn with
    | none => extractRows parse rest
    | some p =>
      if p = "" then extractRows parse rest
      else
        let lbl := extractLabel parse p
        { opening := lbl.1, variation := lbl.2,
          result := r.result,
          side := r.side } :: extractRows parse rest

/-- Embedding of `extract_opening_data(df)`: early empty return when `df` is
`None` or has no `PGN` column, otherwise the row loop. -/
def extract_opening_data (parse : ParseFun) (df : Option DataFrame) :
    List LabeledRow :=
  match df with
  | none => []
  | some d => if d.hasPGN then extractRows parse d.rows else []

/-! Aggregation: `create_opening_statistics_table` groups the labeled rows by
`Opening` and computes per-group statistics.  Each statistic below is the
value the pandas pipeline assigns to the group of a given opening label.
Python `str.lower` / `str.upper` are modelled character-wise on the ASCII
range, which covers the enumerated `Result` / `Side` values being
compared. -/

/-- ASCII lowering of one character (model of Python `str.lower`). -/
def lowerChar (c : Char) : Char :=
  if 'A' ≤ c ∧ c ≤ 'Z' then Char.ofNat (c.toNat + 32) else c

/-- Model of Python `s.lower()`. -/
def lowerStr (s : String) : String := String.mk (s.toList.map lowerChar)

/-- ASCII raising of one character (model of Python `str.upper`). -/
def upperChar (c : Char) : Char :=
  if 'a' ≤ c ∧ c ≤ 'z' then Char.ofNat (c.toNat - 32) else c

/-- Model of Python `s.upper()`. -/
def upperStr (s : String) : String := String.mk (s.toList.map upperChar)

/-- Group of a given opening label, as produced by `groupby('Opening')`. -/
def rowsFor (o : String) (l : List LabeledRow) : List LabeledRow :=
  l.filter (fun r => r.opening = o)

/-- The group size `len(x)` seen by the `apply` lambdas: all records of the
group, including those whose `Result` cell is missing. -/
def groupSizeFor (o : String) (l : List LabeledRow) : ℕ :=
  (rowsFor o l).length

/-- The `Games` column: `agg {'Result': 'count'}`.  Pandas `'count'` counts
the non-null cells only, so records with a missing `Result` are excluded
here (but not from `len(x)`). -/
def gamesFor (o : String) (l : List LabeledRow) : ℕ :=
  ((rowsFor o l).filter (fun r => r.result.isSome)).length

/-- The `Variations` column: `agg {'Variation': 'nunique'}` (the variation
label is always a non-null string). -/
def variationsFor (o : String) (l : List LabeledRow) : ℕ :=
  ((rowsFor o l).map (fun r => r.variation)).dedup.length

/-- The Boolean series `x['Result'].str.lower() == target`: a missing (NaN)
result compares `False`. -/
def resultLowerEq (target : String) (r : LabeledRow) : Bool :=
  match r.result with
  | some s => lowerStr s = target
  | none => false

/-- The Boolean series `x['Side'].str.upper().isin([a, b])`: a missing side
compares `False`. -/
def sideUpperIn (a b : String) (r : LabeledRow) : Bool :=
  match r.side with
  | some s => upperStr s = a || upperStr s = b
  | none => false

/-- The `Wins` column: `(x['Result'].str.lower() == 'win').sum()`. -/
def winsFor (o : String) (l : List LabeledRow) : ℕ :=
  ((rowsFor o l).filter (resultLowerEq "win")).length

/-- The `Losses` column: `(x['Result'].str.lower() == 'loss').sum()`. -/
def lossesFor (o : String) (l : List LabeledRow) : ℕ :=
  ((rowsFor o l).filter (resultLowerEq "loss")).length

/-- The `Draws` column: `(x['Result'].str.lower() == 'draw').sum()`. -/
def drawsFor (o : String) (l : List LabeledRow) : ℕ :=
  ((rowsFor o l).filter (resultLowerEq "draw")).length

/-- The win rate before display rounding:
`(x['Result'].str.lower() == 'win').sum() / len(x) * 100`, as an exact
rational.  The denominator is the full group size, not the `Games`
column. -/
def winRateFor (o : String) (l : List LabeledRow) : ℚ :=
  (winsFor o l : ℚ) / (groupSizeFor o l : ℚ) * 100

/-- The `White` column: `x['Side'].str.upper().isin(['W', 'WHITE'])`. -/
def whiteFor (o : String) (l : List LabeledRow) : ℕ :=
  ((rowsFor o l).filter (sideUpperIn "W" "WHITE")).length

/-- The `Black` column: `x['Side'].str.upper().isin(['B', 'BLACK'])`. -/
def blackFor (o : String) (l : List LabeledRow) : ℕ :=
  ((rowsFor o l).filter (sideUpperIn "B" "BLACK")).length

/-- Distinct opening labels appearing in the table: the group keys of
`groupby('Opening')` (their pandas ordering is not modelled). -/
def tableOpenings (l : List LabeledRow) : List String :=
  (l.map (fun r => r.opening)).dedup

/-- One summary row of the statistics table. -/
structure SummaryRow where
  opening : String
  games : ℕ
  variations : ℕ
  wins : ℕ
  losses : ℕ
  draws : ℕ
  winRate : ℚ
  white : ℕ
  black : ℕ
deriving DecidableEq

/-- The summary row `create_opening_statistics_table` computes for a given
opening label. -/
def summaryFor (o : String) (l : List LabeledRow) : SummaryRow :=
  { opening := o, games := gamesFor o l, variations := variationsFor o l,
    wins := winsFor o l, losses := lossesFor o l, draws := drawsFor o l,
    winRate := winRateFor o l, white := whiteFor o l, black := blackFor o l }

/-- The rows of the statistics table, one per distinct opening (row order is
not modelled; claims about the table are stated via membership). -/
def summaryRows (l : List LabeledRow) : List SummaryRow :=
  (tableOpenings l).map (fun o => summaryFor o l)

/-! Embedding of `get_opening_stats` in `utils/data_processor.py`, the
series feeding the "Most Played Openings" bar chart. -/

/-- Label a single PGN cell computes in the loop of `get_opening_stats`:
`None` for a missing or empty cell, otherwise the captured `[Opening "..."]`
text or the sentinel `"Unknown Opening"`. -/
def openingLabelOf (pgn : Option String) : Option String :=
  match pgn with
  | none => none
  | some p =>
    if p = "" then none
    else
      match searchTag openingTag p.toList with
      | some cap => some (String.mk cap)
      | none => some "Unknown Opening"

/-- Embedding of `get_opening_stats(df)`: group the per-row labels, dropping
null keys (pandas `groupby` drops `None`), count each group, and filter out
the `"Unknown Opening"` bucket.  The descending-by-count display ordering is
not modelled; the result is the set of `(label, count)` pairs. -/
def get_opening_stats (df : Option DataFrame) : List (String × ℕ) :=
  match df with
  | none => []
  | some d =>
    if d.hasPGN then
      let labels := d.rows.map (fun r => openingLabelOf r.pgn)
      let key_list := (labels.filterMap id).dedup
      (key_list.filter (fun k => k ≠ "Unknown Opening")).map
        (fun k => (k, (labels.filterMap id).count k))
    else []

/-! Concrete parse oracles used by the witnesses below. -/

/-- Oracle whose parse always raises (models an exception in the `try`). -/
def parseFailOracle : ParseFun := fun _ => .error ()

/-- Oracle whose parse always yields a falsy game. -/
def parseNoneOracle : ParseFun := fun _ => .ok none

/-- Oracle whose parse always yields the mainline `d4 Nf6`. -/
def parseD4Nf6Oracle : ParseFun := fun _ => .ok (some ["d4", "Nf6"])

/-- Oracle whose parse always yields the mainline `e4 e5`. -/
def parseE4E5Oracle : ParseFun := fun _ => .ok (some ["e4", "e5"])

/-- C1: when the PGN text contains a well-formed `[Opening "X"]` tag (the
regex search succeeds with capture `X`), the extracted opening is exactly
`X`, and the extraction result does not depend on the parse oracle at all —
the move-based heuristic is never consulted. -/
theorem opening_tag_determines_opening (parse parse2 : ParseFun) (p : String)
    (cap : List Char) (h : searchTag openingTag p.toList = some cap) :
    (extractLabel parse p).1 = String.mk cap ∧
      extractLabel parse p = extractLabel parse2 p := by
  unfold extractLabel
  rw [h]
  cases searchTag variationTag p.toList <;> exact ⟨rfl, rfl⟩

/-- Witness for C1 at the record `[Opening "Ruy Lopez"] 1. e4 e5`, with two
oracles disagreeing on every input. -/
theorem opening_tag_determines_opening_witness :
    searchTag openingTag ("[Opening \"Ruy Lopez\"] 1. e4 e5").toList =
        some ("Ruy Lopez").toList ∧
      ((extractLabel parseE4E5Oracle "[Opening \"Ruy Lopez\"] 1. e4 e5").1 =
          String.mk ("Ruy Lopez").toList ∧
        extractLabel parseE4E5Oracle "[Opening \"Ruy Lopez\"] 1. e4 e5" =
          extractLabel parseFailOracle "[Opening \"Ruy Lopez\"] 1. e4 e5") :=
  ⟨by decide, opening_tag_determines_opening parseE4E5Oracle parseFailOracle
    "[Opening \"Ruy Lopez\"] 1. e4 e5" ("Ruy Lopez").toList (by decide)⟩

/-- Input with a single row whose PGN cell is the empty string. -/
def emptyPGNFrame : DataFrame :=
  { hasPGN := true,
    rows := [{ pgn := some "", result := some "Win", side := some "White" }] }

/-- C2 counterexample: a record whose PGN is empty is skipped by the row
loop (`continue`) — the extractor output is empty, so the record does not
appear under "Unknown Opening" (or at all), contrary to the claim. -/
theorem empty_pgn_row_not_in_output :
    extract_opening_data parseNoneOracle (some emptyPGNFrame) = [] := rfl

/-- C2 (amended): rows with a missing or empty PGN cell are skipped and
absent from the output, while the remaining rows are still processed; a
non-empty PGN without an Opening tag is labeled "Unknown Opening" /
"Main Line" exactly when parsing raises, and "Standard Opening" /
"Main Line" when parsing yields no game; in every case the rest of the rows
is processed unchanged. -/
theorem pgn_failure_handling (parse : ParseFun) (r : Row) (rest : List Row) :
    (r.pgn = none → extractRows parse (r :: rest) = extractRows parse rest) ∧
    (r.pgn = some "" →
      extractRows parse (r :: rest) = extractRows parse rest) ∧
    (∀ p, r.pgn = some p → p ≠ "" →
      searchTag openingTag p.toList = none → parse p = .error () →
      extractRows parse (r :: rest) =
        { opening := "Unknown Opening", variation := "Main Line",
          result := r.result, side := r.side }
          :: extractRows parse rest) ∧
    (∀ p, r.pgn = some p → p ≠ "" →
      searchTag openingTag p.toList = none → parse p = .ok none →
      extractRows parse (r :: rest) =
        { opening := "Standard Opening", variation := "Main Line",
          result := r.result, side := r.side }
          :: extractRows parse rest) := by
  refine ⟨fun h => by simp [extractRows, h], fun h => by simp [extractRows, h],
    ?_, ?_⟩
  · intro p hp hne ht hparse
    have ht2 : searchTag openingTag p.data = none := ht
    simp [extractRows, extractLabel, hp, hne, ht2, hparse]
  · intro p hp hne ht hparse
    have ht2 : searchTag openingTag p.data = none := ht
    simp [extractRows, extractLabel, hp, hne, ht2, hparse]

/-- Witness for C2's amended theorem: an empty-PGN row is dropped, and a
garbage row whose parse raises yields the "Unknown Opening" sentinel while
processing continues. -/
theorem pgn_failure_handling_witness :
    extractRows parseFailOracle
        [{ pgn := some "", result := some "Win", side := some "W" }] =
      extractRows parseFailOracle [] ∧
    extractRows parseFailOracle
        [{ pgn := some "garbage", result := some "Win", side := some "W" }] =
      { opening := "Unknown Opening", variation := "Main Line",
        result := some "Win", side := some "W" } ::
        extractRows parseFailOracle [] :=
  ⟨(pgn_failure_handling parseFailOracle
      { pgn := some "", result := some "Win", side := some "W" } []).2.1 rfl,
   (pgn_failure_handling parseFailOracle
      { pgn := some "garbage", result := some "Win", side := some "W" } []).2.2.1
      "garbage" rfl (by decide) (by decide) rfl⟩

/-- C3: for a record without an Opening tag whose parse yields a mainline,
the heuristic classifies by the first half-moves exactly as the fixed
decision table states, in every case of the table. -/
theorem heuristic_decision_table (parse : ParseFun) (p : String)
    (sans : List String) (htag : searchTag openingTag p.toList = none)
    (hparse : parse p = .ok (some sans)) :
    (∀ r, sans = "e4" :: "e5" :: r →
      (extractLabel parse p).1 = "Open Game") ∧
    (∀ r, sans = "e4" :: "c5" :: r →
      (extractLabel parse p).1 = "Sicilian Defense") ∧
    (∀ m r, sans = "e4" :: m :: r → m ≠ "e5" → m ≠ "c5" →
      (extractLabel parse p).1 = "King's Pawn Game") ∧
    (sans = ["e4"] → (extractLabel parse p).1 = "King's Pawn Game") ∧
    (∀ r, sans = "d4" :: "d5" :: r →
      (extractLabel parse p).1 = "Closed Game") ∧
    (∀ r, sans = "d4" :: "Nf6" :: r →
      (extractLabel parse p).1 = "Indian Defense") ∧
    (∀ m r, sans = "d4" :: m :: r → m ≠ "d5" → m ≠ "Nf6" →
      (extractLabel parse p).1 = "Queen's Pawn Game") ∧
    (sans = ["d4"] → (extractLabel parse p).1 = "Queen's Pawn Game") ∧
    (∀ r, sans = "c4" :: r → (extractLabel parse p).1 = "English Opening") ∧
    (∀ r, sans = "Nf3" :: r → (extractLabel parse p).1 = "Reti Opening") ∧
    (∀ m r, sans = m :: r → m ≠ "e4" → m ≠ "d4" → m ≠ "c4" → m ≠ "Nf3" →
      (extractLabel parse p).1 = "Other Opening") := by
  have hbase : extractLabel parse p =
      (classifyFirstMoves (sans.take 4), "Main Line") := by
    unfold extractLabel
    rw [htag, hparse]
  refine ⟨?_, ?_, ?_, ?_, ?_, ?_, ?_, ?_, ?_, ?_, ?_⟩
  · rintro r rfl; simp [hbase, classifyFirstMoves]
  · rintro r rfl; simp [hbase, classifyFirstMoves]
  · rintro m r rfl h1 h2; simp [hbase, classifyFirstMoves, h1, h2]
  · rintro rfl; simp [hbase, classifyFirstMoves]
  · rintro r rfl; simp [hbase, classifyFirstMoves]
  · rintro r rfl; simp [hbase, classifyFirstMoves]
  · rintro m r rfl h1 h2; simp [hbase, classifyFirstMoves, h1, h2]
  · rintro rfl; simp [hbase, classifyFirstMoves]
  · rintro r rfl; simp [hbase, classifyFirstMoves]
  · rintro r rfl; simp [hbase, classifyFirstMoves]
  · rintro m r rfl h1 h2 h3 h4
    simp [hbase, classifyFirstMoves, h1, h2, h3, h4]

/-- Witness for C3 at a concrete record: no Opening tag, mainline `d4 Nf6`,
classified "Indian Defense". -/
theorem heuristic_decision_table_witness :
    searchTag openingTag ("1. d4 Nf6").toList = none ∧
      (extractLabel parseD4Nf6Oracle "1. d4 Nf6").1 = "Indian Defense" :=
  ⟨by decide,
    (heuristic_decision_table parseD4Nf6Oracle "1. d4 Nf6" ["d4", "Nf6"]
      (by decide) rfl).2.2.2.2.2.1 [] rfl⟩

/-- Counting three pairwise-exclusive predicates, each implying a fourth
predicate `q`, never exceeds the count of `q`. -/
theorem countP_three_le_countP {α : Type} (p1 p2 p3 q : α → Bool)
    (g : List α)
    (h12 : ∀ a, p1 a → p2 a → False) (h13 : ∀ a, p1 a → p3 a → False)
    (h23 : ∀ a, p2 a → p3 a → False)
    (hq1 : ∀ a, p1 a → q a) (hq2 : ∀ a, p2 a → q a)
    (hq3 : ∀ a, p3 a → q a) :
    g.countP p1 + g.countP p2 + g.countP p3 ≤ g.countP q := by
  induction g with
  | nil => simp
  | cons a g ih =>
    rw [List.countP_cons, List.countP_cons, List.countP_cons,
      List.countP_cons]
    by_cases c1 : p1 a
    · by_cases c2 : p2 a
      · exact (h12 a c1 c2).elim
      by_cases c3 : p3 a
      · exact (h13 a c1 c3).elim
      have cq := hq1 a c1
      simp [c1, c2, c3, cq]
      omega
    · by_cases c2 : p2 a
      · by_cases c3 : p3 a
        · exact (h23 a c2 c3).elim
        have cq := hq2 a c2
        simp [c1, c2, c3, cq]
        omega
      · by_cases c3 : p3 a
        · have cq := hq3 a c3
          simp [c1, c2, c3, cq]
          omega
        · by_cases cq : q a <;> simp [c1, c2, c3, cq] <;> omega

/-- Counting three pairwise-exclusive predicates, each implying `q`, which
together cover every `q`-element, equals the count of `q`. -/
theorem countP_three_eq_countP {α : Type} (p1 p2 p3 q : α → Bool)
    (g : List α)
    (h12 : ∀ a, p1 a → p2 a → False) (h13 : ∀ a, p1 a → p3 a → False)
    (h23 : ∀ a, p2 a → p3 a → False)
    (hq1 : ∀ a, p1 a → q a) (hq2 : ∀ a, p2 a → q a)
    (hq3 : ∀ a, p3 a → q a)
    (hcov : ∀ a ∈ g, q a → p1 a ∨ p2 a ∨ p3 a) :
    g.countP p1 + g.countP p2 + g.countP p3 = g.countP q := by
  induction g with
  | nil => simp
  | cons a g ih =>
    rw [List.countP_cons, List.countP_cons, List.countP_cons,
      List.countP_cons]
    have ih2 := ih (fun b hb => hcov b (List.mem_cons_of_mem a hb))
    by_cases cq : q a
    · rcases hcov a (List.mem_cons_self a g) cq with c1 | c2 | c3
      · have n2 : ¬ p2 a = true := fun hx => h12 a c1 hx
        have n3 : ¬ p3 a = true := fun hx => h13 a c1 hx
        simp [c1, n2, n3, cq]
        omega
      · have n1 : ¬ p1 a = true := fun hx => h12 a hx c2
        have n3 : ¬ p3 a = true := fun hx => h23 a c2 hx
        simp [c2, n1, n3, cq]
        omega
      · have n1 : ¬ p1 a = true := fun hx => h13 a hx c3
        have n2 : ¬ p2 a = true := fun hx => h23 a hx c3
        simp [c3, n1, n2, cq]
        omega
    · have n1 : ¬ p1 a = true := fun hx => cq (hq1 a hx)
      have n2 : ¬ p2 a = true := fun hx => cq (hq2 a hx)
      have n3 : ¬ p3 a = true := fun hx => cq (hq3 a hx)
      simp [n1, n2, n3, cq]
      omega

/-- A result comparing equal to some target under the `str.lower` series is
in particular present (non-null). -/
theorem resultLowerEq_isSome (t : String) (r : LabeledRow)
    (h : resultLowerEq t r) : r.result.isSome := by
  cases hr : r.result with
  | none => simp [resultLowerEq, hr] at h
  | some v => simp [hr]

/-- A present result lowercases to at most one target string. -/
theorem resultLowerEq_exclusive (t1 t2 : String) (hne : t1 ≠ t2)
    (r : LabeledRow) (h1 : resultLowerEq t1 r) (h2 : resultLowerEq t2 r) :
    False := by
  cases hr : r.result with
  | none => simp [resultLowerEq, hr] at h1
  | some v =>
    simp [resultLowerEq, hr] at h1 h2
    exact hne (h1.symm.trans h2)

/-- The three result filters of the statistics table are pairwise exclusive
and each implies a present result, so their total count never exceeds the
non-null count (the `Games` column). -/
theorem wld_filter_le (g : List LabeledRow) :
    (g.filter (resultLowerEq "win")).length +
      (g.filter (resultLowerEq "loss")).length +
      (g.filter (resultLowerEq "draw")).length ≤
      (g.filter (fun r => r.result.isSome)).length := by
  rw [← List.countP_eq_length_filter, ← List.countP_eq_length_filter,
    ← List.countP_eq_length_filter, ← List.countP_eq_length_filter]
  refine countP_three_le_countP _ _ _ _ g ?_ ?_ ?_ ?_ ?_ ?_
  · exact fun a h1 h2 =>
      resultLowerEq_exclusive "win" "loss" (by decide) a h1 h2
  · exact fun a h1 h2 =>
      resultLowerEq_exclusive "win" "draw" (by decide) a h1 h2
  · exact fun a h1 h2 =>
      resultLowerEq_exclusive "loss" "draw" (by decide) a h1 h2
  · exact fun a h => resultLowerEq_isSome "win" a h
  · exact fun a h => resultLowerEq_isSome "loss" a h
  · exact fun a h => resultLowerEq_isSome "draw" a h

/-- When every record of the group has a present result lowercasing to one
of the three known kinds, the three filters cover the non-null records and
their counts sum to the `Games` column. -/
theorem wld_filter_eq (g : List LabeledRow)
    (hcov : ∀ r ∈ g, resultLowerEq "win" r ∨ resultLowerEq "loss" r ∨
      resultLowerEq "draw" r) :
    (g.filter (resultLowerEq "win")).length +
      (g.filter (resultLowerEq "loss")).length +
      (g.filter (resultLowerEq "draw")).length =
      (g.filter (fun r => r.result.isSome)).length := by
  rw [← List.countP_eq_length_filter, ← List.countP_eq_length_filter,
    ← List.countP_eq_length_filter, ← List.countP_eq_length_filter]
  refine countP_three_eq_countP _ _ _ _ g ?_ ?_ ?_ ?_ ?_ ?_ ?_
  · exact fun a h1 h2 =>
      resultLowerEq_exclusive "win" "loss" (by decide) a h1 h2
  · exact fun a h1 h2 =>
      resultLowerEq_exclusive "win" "draw" (by decide) a h1 h2
  · exact fun a h1 h2 =>
      resultLowerEq_exclusive "loss" "draw" (by decide) a h1 h2
  · exact fun a h => resultLowerEq_isSome "win" a h
  · exact fun a h => resultLowerEq_isSome "loss" a h
  · exact fun a h => resultLowerEq_isSome "draw" a h
  · exact fun a ha _ => hcov a ha

/-- A labeled row whose stored result is the string "Unknown". -/
def unknownResultRow : LabeledRow :=
  { opening := "Open Game", variation := "Main Line",
    result := some "Unknown", side := some "White" }

/-- Labeled row with stored result "Win". -/
def winResultRow : LabeledRow :=
  { opening := "Open Game", variation := "Main Line",
    result := some "Win", side := some "White" }

/-- Labeled row with stored result "draw". -/
def drawResultRow : LabeledRow :=
  { opening := "Open Game", variation := "Italian",
    result := some "draw", side := some "B" }

/-- Labeled row whose Result and Side cells are missing (NaN). -/
def nanResultRow : LabeledRow :=
  { opening := "Open Game", variation := "Main Line",
    result := none, side := none }

/-- C4 counterexample: with a single row whose result is the string
"Unknown", the group for "Open Game" has totalGames 1 but
wins + losses + draws 0, so the equality claimed without precondition
fails. -/
theorem unknown_result_breaks_wld_total :
    gamesFor "Open Game" [unknownResultRow] = 1 ∧
      winsFor "Open Game" [unknownResultRow] +
        lossesFor "Open Game" [unknownResultRow] +
        drawsFor "Open Game" [unknownResultRow] = 0 := by
  constructor <;> rfl

/-- C4 (amended): for arbitrary input records, every summary row satisfies
wins + losses + draws ≤ totalGames. -/
theorem wld_sum_le_total (l : List LabeledRow) (o : String) :
    winsFor o l + lossesFor o l + drawsFor o l ≤ gamesFor o l :=
  wld_filter_le (rowsFor o l)

/-- C5 counterexample: a missing (NaN) Result cell does not count toward
totalGames — pandas `count` excludes it — so the group {Win, NaN} has two
records but totalGames 1, and wins + losses + draws equals totalGames even
though one record's result matches none of the three kinds. -/
theorem nan_result_not_counted :
    groupSizeFor "Open Game" [winResultRow, nanResultRow] = 2 ∧
      gamesFor "Open Game" [winResultRow, nanResultRow] = 1 ∧
      winsFor "Open Game" [winResultRow, nanResultRow] +
        lossesFor "Open Game" [winResultRow, nanResultRow] +
        drawsFor "Open Game" [winResultRow, nanResultRow] = 1 :=
  ⟨rfl, rfl, rfl⟩

/-- C5 (amended): wins + losses + draws never exceeds totalGames, with
equality when every record's result is present and matches one of
win/loss/draw case-insensitively.  A present result matching none of the
three counts toward totalGames but toward none of the three, while a
missing (NaN) result counts toward neither totalGames nor any of the
three (it only enlarges the group). -/
theorem wld_sum_vs_total (l : List LabeledRow) (o : String)
    (r : LabeledRow) :
    (winsFor o l + lossesFor o l + drawsFor o l ≤ gamesFor o l) ∧
    ((∀ x ∈ l, resultLowerEq "win" x ∨ resultLowerEq "loss" x ∨
        resultLowerEq "draw" x) →
      winsFor o l + lossesFor o l + drawsFor o l = gamesFor o l) ∧
    (r.opening = o → r.result = none →
      gamesFor o (l ++ [r]) = gamesFor o l ∧
      winsFor o (l ++ [r]) = winsFor o l ∧
      lossesFor o (l ++ [r]) = lossesFor o l ∧
      drawsFor o (l ++ [r]) = drawsFor o l ∧
      groupSizeFor o (l ++ [r]) = groupSizeFor o l + 1) ∧
    (∀ s, r.opening = o → r.result = some s →
      lowerStr s ≠ "win" → lowerStr s ≠ "loss" → lowerStr s ≠ "draw" →
      gamesFor o (l ++ [r]) = gamesFor o l + 1 ∧
      winsFor o (l ++ [r]) = winsFor o l ∧
      lossesFor o (l ++ [r]) = lossesFor o l ∧
      drawsFor o (l ++ [r]) = drawsFor o l) := by
  refine ⟨wld_filter_le (rowsFor o l), ?_, ?_, ?_⟩
  · intro hcov
    exact wld_filter_eq (rowsFor o l)
      (fun x hx => hcov x (List.mem_filter.mp hx).1)
  · intro ho hr
    refine ⟨?_, ?_, ?_, ?_, ?_⟩ <;>
      simp [gamesFor, winsFor, lossesFor, drawsFor, groupSizeFor, rowsFor,
        List.filter_append, ho, hr, resultLowerEq]
  · intro s ho hr hw hlo hd
    refine ⟨?_, ?_, ?_, ?_⟩ <;>
      simp [gamesFor, winsFor, lossesFor, drawsFor, groupSizeFor, rowsFor,
        List.filter_append, ho, hr, resultLowerEq, hw, hlo, hd]

/-- Witness for C5's amended theorem: a "Win"/"draw" input satisfies the
coverage hypothesis with equality, and appending a NaN-result record to a
"Win" record leaves totalGames unchanged. -/
theorem wld_sum_vs_total_witness :
    ((∀ x ∈ [winResultRow, drawResultRow],
        resultLowerEq "win" x ∨ resultLowerEq "loss" x ∨
          resultLowerEq "draw" x) ∧
      winsFor "Open Game" [winResultRow, drawResultRow] +
        lossesFor "Open Game" [winResultRow, drawResultRow] +
        drawsFor "Open Game" [winResultRow, drawResultRow] =
        gamesFor "Open Game" [winResultRow, drawResultRow]) ∧
    gamesFor "Open Game" ([winResultRow] ++ [nanResultRow]) =
      gamesFor "Open Game" [winResultRow] :=
  ⟨⟨by decide,
    (wld_sum_vs_total [winResultRow, drawResultRow] "Open Game"
      nanResultRow).2.1 (by decide)⟩,
   ((wld_sum_vs_total [winResultRow] "Open Game" nanResultRow).2.2.1
      rfl rfl).1⟩

/-- The statistics of a fixed opening label are invariant under permutation
of the input records: every count is a filter length and filtering commutes
with permutation. -/
theorem summaryFor_perm (o : String) {l l2 : List LabeledRow}
    (h : l.Perm l2) : summaryFor o l = summaryFor o l2 := by
  have hp : (rowsFor o l).Perm (rowsFor o l2) := h.filter _
  have hn := hp.length_eq
  have hg := (hp.filter (fun r => r.result.isSome)).length_eq
  have hv := ((hp.map (fun r => r.variation)).dedup).length_eq
  have hw := (hp.filter (resultLowerEq "win")).length_eq
  have hlo := (hp.filter (resultLowerEq "loss")).length_eq
  have hd := (hp.filter (resultLowerEq "draw")).length_eq
  have hwh := (hp.filter (sideUpperIn "W" "WHITE")).length_eq
  have hb := (hp.filter (sideUpperIn "B" "BLACK")).length_eq
  simp only [summaryFor, gamesFor, groupSizeFor, variationsFor, winsFor,
    lossesFor, drawsFor, winRateFor, whiteFor, blackFor]
  rw [hn, hg, hv, hw, hlo, hd, hwh, hb]

/-- C7: aggregation is order-independent — permuting the input records
yields the same set of summary rows (membership is preserved both ways). -/
theorem aggregation_perm_invariant {l l2 : List LabeledRow}
    (h : l.Perm l2) : ∀ x, x ∈ summaryRows l ↔ x ∈ summaryRows l2 := by
  have ht : ∀ o : String, o ∈ tableOpenings l ↔ o ∈ tableOpenings l2 :=
    fun o => ((h.map (fun r => r.opening)).dedup).mem_iff
  have hs : ∀ o, summaryFor o l = summaryFor o l2 :=
    fun o => summaryFor_perm o h
  intro x
  simp only [summaryRows, List.mem_map]
  constructor
  · rintro ⟨o, ho, rfl⟩
    exact ⟨o, (ht o).mp ho, (hs o).symm⟩
  · rintro ⟨o, ho, rfl⟩
    exact ⟨o, (ht o).mpr ho, hs o⟩

/-- Witness for C7: the summary row of a two-row input is also a summary
row of the swapped input. -/
theorem aggregation_perm_invariant_witness :
    summaryFor "Open Game" [winResultRow, drawResultRow] ∈
      summaryRows [drawResultRow, winResultRow] :=
  (aggregation_perm_invariant (List.Perm.swap drawResultRow winResultRow [])
      (summaryFor "Open Game" [winResultRow, drawResultRow])).mp
    (by
      have e : summaryRows [winResultRow, drawResultRow] =
          [summaryFor "Open Game" [winResultRow, drawResultRow]] := rfl
      rw [e]
      exact List.mem_singleton_self _)

/-- C9: a `None` input table, or one without a PGN column, makes both the
opening extractor and the opening-stats series return an empty result (an
early return, not an exception). -/
theorem missing_pgn_column_empty (parse : ParseFun) (rows : List Row) :
    extract_opening_data parse none = [] ∧
      extract_opening_data parse
        (some { hasPGN := false, rows := rows }) = [] ∧
      get_opening_stats none = [] ∧
      get_opening_stats (some { hasPGN := false, rows := rows }) = [] :=
  ⟨rfl, rfl, rfl, rfl⟩

/-- Counting a key after `filterMap id` counts the corresponding `some`
entries of the original list. -/
theorem count_filterMap_id_eq (xs : List (Option String)) (k : String) :
    (xs.filterMap id).count k = xs.count (some k) := by
  induction xs with
  | nil => rfl
  | cons x xs ih =>
    cases x with
    | none => simpa [List.count_cons] using ih
    | some v => simp [List.count_cons, ih]

/-- Counting a label among the mapped labels counts the rows carrying that
label. -/
theorem count_map_label (rows : List Row) (k : String) :
    (rows.map (fun r => openingLabelOf r.pgn)).count (some k) =
      rows.countP (fun r => openingLabelOf r.pgn == some k) := by
  induction rows with
  | nil => rfl
  | cons r rows ih => simp [List.count_cons, List.countP_cons, ih]

/-- C10: every entry of the most-played-openings series has a key distinct
from "Unknown Opening" (null labels cannot appear as keys at all), its
count counts exactly the rows whose extracted label is that key, and a row
whose PGN is missing, empty, or lacks an Opening tag never carries such a
label — it contributes nothing to the series. -/
theorem opening_bar_excludes_unknown (rows : List Row) (p : String × ℕ)
    (hp : p ∈ get_opening_stats (some { hasPGN := true, rows := rows })) :
    p.1 ≠ "Unknown Opening" ∧
      p.2 = rows.countP (fun r => openingLabelOf r.pgn == some p.1) ∧
      (∀ r ∈ rows,
        (∀ s, r.pgn = some s → searchTag openingTag s.toList = none) →
        openingLabelOf r.pgn ≠ some p.1) := by
  simp only [get_opening_stats, if_pos, List.mem_map, List.mem_filter] at hp
  obtain ⟨k, ⟨hk1, hk2⟩, hpk⟩ := hp
  have hkne : k ≠ "Unknown Opening" := by simpa using hk2
  subst hpk
  refine ⟨hkne, ?_, ?_⟩
  · rw [count_filterMap_id_eq, count_map_label]
  · intro r hr hno heq
    rcases hpgn : r.pgn with _ | s
    · rw [hpgn] at heq
      simp [openingLabelOf] at heq
    · by_cases hs : s = ""
      · rw [hpgn, hs] at heq
        simp [openingLabelOf] at heq
      · have htag2 : searchTag openingTag s.data = none := hno s hpgn
        rw [hpgn] at heq
        simp [openingLabelOf, hs, htag2] at heq
        exact hkne heq.symm

/-- Row whose PGN carries an explicit Opening tag. -/
def taggedRow : Row :=
  { pgn := some "[Opening \"Ruy Lopez\"] 1. e4 e5",
    result := some "Win", side := some "W" }

/-- Witness for C10: with one tagged row the series is exactly
`[("Ruy Lopez", 1)]`, and that key differs from "Unknown Opening". -/
theorem opening_bar_excludes_unknown_witness :
    ("Ruy Lopez", 1) ∈
        get_opening_stats (some { hasPGN := true, rows := [taggedRow] }) ∧
      ("Ruy Lopez", (1 : ℕ)).1 ≠ "Unknown Opening" :=
  ⟨by decide,
    (opening_bar_excludes_unknown [taggedRow] ("Ruy Lopez", 1)
      (by decide)).1⟩

end ChessData
